import Mathlib

/-!
Verification of the DeFi language-server core (src/server/src/server.ts).

The TypeScript source is embedded shallowly:

* Pure helpers (`findPossibleEthereumAddresses`, `findPossiblePrivateKeys`,
  `normalizeHex`, `getCodeActions`, `getQuickFix`,
  `pushEthereumAddressCodeLenses`) become Lean functions on `String`/lists.
* The external npm collaborators (web3, ethereum-ens, ethereumjs-wallet,
  request) are modelled as explicit environments.  The ENS backend is a pair
  of response maps (`EnsEnv`), where `none` models a rejected promise or a
  missing record; the key-derivation library is a pair of fallible functions
  (`KeyEnv`).  `web3.utils.isAddress` / `web3.utils.toChecksumAddress` are
  deterministic pure functions of their input, so they are embedded for real:
  EIP-55 checksum encoding over an executable keccak-256.
* JavaScript exceptions that escape a function (and therefore reject the
  enclosing promise) are modelled with `Except Unit`; exceptions that the
  source catches are folded into `Option`/branching at the call site.
* LSP `Range` values are produced in the source as
  `positionAt(m.index) .. positionAt(m.index + m[0].length)`; `positionAt`
  belongs to the external document collaborator and is injective in the
  offset, so ranges are carried here as the underlying pair of offsets.
-/

/-! ## Keccak-256 (the hash underlying `web3.utils.toChecksumAddress`) -/

def UINT64_MASK : Nat := 18446744073709551615

def xor64 (a b : Nat) : Nat := Nat.xor a b

def not64 (a : Nat) : Nat := UINT64_MASK - a

def rotl64 (x n : Nat) : Nat :=
  Nat.lor ((x <<< n) % 18446744073709551616) (x >>> (64 - n))

def KECCAK_RC : List Nat :=
  [1, 32898, 9223372036854808714,
   9223372039002292224, 32907, 2147483649,
   9223372039002292353, 9223372036854808585, 138,
   136, 2147516425, 2147483658,
   2147516555, 9223372036854775947, 9223372036854808713,
   9223372036854808579, 9223372036854808578, 9223372036854775936,
   32778, 9223372039002259466, 9223372039002292353,
   9223372036854808704, 2147483649, 9223372039002292232]

def keccakRound (s : List Nat) (rc : Nat) : List Nat :=
  let a0 := s.getD 0 0
  let a1 := s.getD 1 0
  let a2 := s.getD 2 0
  let a3 := s.getD 3 0
  let a4 := s.getD 4 0
  let a5 := s.getD 5 0
  let a6 := s.getD 6 0
  let a7 := s.getD 7 0
  let a8 := s.getD 8 0
  let a9 := s.getD 9 0
  let a10 := s.getD 10 0
  let a11 := s.getD 11 0
  let a12 := s.getD 12 0
  let a13 := s.getD 13 0
  let a14 := s.getD 14 0
  let a15 := s.getD 15 0
  let a16 := s.getD 16 0
  let a17 := s.getD 17 0
  let a18 := s.getD 18 0
  let a19 := s.getD 19 0
  let a20 := s.getD 20 0
  let a21 := s.getD 21 0
  let a22 := s.getD 22 0
  let a23 := s.getD 23 0
  let a24 := s.getD 24 0
  let c0 := xor64 a0 (xor64 a5 (xor64 a10 (xor64 a15 a20)))
  let c1 := xor64 a1 (xor64 a6 (xor64 a11 (xor64 a16 a21)))
  let c2 := xor64 a2 (xor64 a7 (xor64 a12 (xor64 a17 a22)))
  let c3 := xor64 a3 (xor64 a8 (xor64 a13 (xor64 a18 a23)))
  let c4 := xor64 a4 (xor64 a9 (xor64 a14 (xor64 a19 a24)))
  let d0 := xor64 c4 (rotl64 c1 1)
  let d1 := xor64 c0 (rotl64 c2 1)
  let d2 := xor64 c1 (rotl64 c3 1)
  let d3 := xor64 c2 (rotl64 c4 1)
  let d4 := xor64 c3 (rotl64 c0 1)
  let t0 := xor64 a0 d0
  let t1 := xor64 a1 d1
  let t2 := xor64 a2 d2
  let t3 := xor64 a3 d3
  let t4 := xor64 a4 d4
  let t5 := xor64 a5 d0
  let t6 := xor64 a6 d1
  let t7 := xor64 a7 d2
  let t8 := xor64 a8 d3
  let t9 := xor64 a9 d4
  let t10 := xor64 a10 d0
  let t11 := xor64 a11 d1
  let t12 := xor64 a12 d2
  let t13 := xor64 a13 d3
  let t14 := xor64 a14 d4
  let t15 := xor64 a15 d0
  let t16 := xor64 a16 d1
  let t17 := xor64 a17 d2
  let t18 := xor64 a18 d3
  let t19 := xor64 a19 d4
  let t20 := xor64 a20 d0
  let t21 := xor64 a21 d1
  let t22 := xor64 a22 d2
  let t23 := xor64 a23 d3
  let t24 := xor64 a24 d4
  let b0 := t0
  let b1 := rotl64 t6 44
  let b2 := rotl64 t12 43
  let b3 := rotl64 t18 21
  let b4 := rotl64 t24 14
  let b5 := rotl64 t3 28
  let b6 := rotl64 t9 20
  let b7 := rotl64 t10 3
  let b8 := rotl64 t16 45
  let b9 := rotl64 t22 61
  let b10 := rotl64 t1 1
  let b11 := rotl64 t7 6
  let b12 := rotl64 t13 25
  let b13 := rotl64 t19 8
  let b14 := rotl64 t20 18
  let b15 := rotl64 t4 27
  let b16 := rotl64 t5 36
  let b17 := rotl64 t11 10
  let b18 := rotl64 t17 15
  let b19 := rotl64 t23 56
  let b20 := rotl64 t2 62
  let b21 := rotl64 t8 55
  let b22 := rotl64 t14 39
  let b23 := rotl64 t15 41
  let b24 := rotl64 t21 2
  let o0 := xor64 b0 (Nat.land (not64 b1) b2)
  let o1 := xor64 b1 (Nat.land (not64 b2) b3)
  let o2 := xor64 b2 (Nat.land (not64 b3) b4)
  let o3 := xor64 b3 (Nat.land (not64 b4) b0)
  let o4 := xor64 b4 (Nat.land (not64 b0) b1)
  let o5 := xor64 b5 (Nat.land (not64 b6) b7)
  let o6 := xor64 b6 (Nat.land (not64 b7) b8)
  let o7 := xor64 b7 (Nat.land (not64 b8) b9)
  let o8 := xor64 b8 (Nat.land (not64 b9) b5)
  let o9 := xor64 b9 (Nat.land (not64 b5) b6)
  let o10 := xor64 b10 (Nat.land (not64 b11) b12)
  let o11 := xor64 b11 (Nat.land (not64 b12) b13)
  let o12 := xor64 b12 (Nat.land (not64 b13) b14)
  let o13 := xor64 b13 (Nat.land (not64 b14) b10)
  let o14 := xor64 b14 (Nat.land (not64 b10) b11)
  let o15 := xor64 b15 (Nat.land (not64 b16) b17)
  let o16 := xor64 b16 (Nat.land (not64 b17) b18)
  let o17 := xor64 b17 (Nat.land (not64 b18) b19)
  let o18 := xor64 b18 (Nat.land (not64 b19) b15)
  let o19 := xor64 b19 (Nat.land (not64 b15) b16)
  let o20 := xor64 b20 (Nat.land (not64 b21) b22)
  let o21 := xor64 b21 (Nat.land (not64 b22) b23)
  let o22 := xor64 b22 (Nat.land (not64 b23) b24)
  let o23 := xor64 b23 (Nat.land (not64 b24) b20)
  let o24 := xor64 b24 (Nat.land (not64 b20) b21)
  [xor64 o0 rc, o1, o2, o3, o4, o5, o6, o7, o8, o9, o10, o11, o12,
   o13, o14, o15, o16, o17, o18, o19, o20, o21, o22, o23, o24]

def keccakPermute (s : List Nat) : List Nat :=
  KECCAK_RC.foldl keccakRound s

/-- Keccak (pre-SHA3) padding: domain byte 0x01, final bit 0x80, rate 136. -/

def keccakPad (msg : List Nat) : List Nat :=
  let padLen := 136 - msg.length % 136
  if padLen = 1 then msg ++ [0x81]
  else msg ++ [0x01] ++ List.replicate (padLen - 2) 0 ++ [0x80]

/-- Little-endian 8-byte group to a 64-bit lane. -/

def bytesToLane (bs : List Nat) : Nat :=
  bs.foldr (fun b acc => b + 256 * acc) 0

def absorbBlock (st : List Nat) (block : List Nat) : List Nat :=
  let lanes := (List.range 17).map (fun i => bytesToLane ((block.drop (8 * i)).take 8))
  keccakPermute ((List.range 25).map (fun i =>
    if i < 17 then xor64 (st.getD i 0) (lanes.getD i 0) else st.getD i 0))

def absorbChunksAux : Nat → List Nat → List Nat → List Nat
  | 0, st, _ => st
  | _ + 1, st, [] => st
  | fuel + 1, st, l => absorbChunksAux fuel (absorbBlock st (l.take 136)) (l.drop 136)

def absorbChunks (st : List Nat) (l : List Nat) : List Nat :=
  absorbChunksAux l.length st l

def laneToBytes (n : Nat) : List Nat :=
  (List.range 8).map (fun i => (n >>> (8 * i)) % 256)

/-- Keccak-256 of a byte list (bytes as `Nat`s below 256). -/

def keccak256 (msg : List Nat) : List Nat :=
  let st := absorbChunks (List.replicate 25 0) (keccakPad msg)
  ((List.range 4).map (fun i => laneToBytes (st.getD i 0))).flatten

/-! ## `web3.utils` address helpers (EIP-55)

`web3.utils.isAddress` accepts a 40-hex-digit string with optional `0x`
prefix that is all-lowercase, all-uppercase, or in correct EIP-55 mixed
case; `web3.utils.toChecksumAddress` throws on anything that is not
optionally-prefixed 40-hex, and otherwise re-encodes the lowercased digits,
uppercasing digit `i` when nibble `i` of `keccak256(lowercase hex text)` is
at least 8.  A throw is modelled as `none`. -/

def isHexChar (c : Char) : Bool :=
  ('0' ≤ c ∧ c ≤ '9') ∨ ('a' ≤ c ∧ c ≤ 'f') ∨ ('A' ≤ c ∧ c ≤ 'F')

def isLowerHexChar (c : Char) : Bool :=
  ('0' ≤ c ∧ c ≤ '9') ∨ ('a' ≤ c ∧ c ≤ 'f')

def isUpperHexChar (c : Char) : Bool :=
  ('0' ≤ c ∧ c ≤ '9') ∨ ('A' ≤ c ∧ c ≤ 'F')

/-- Lowercase an ASCII hex letter, other characters unchanged. -/

def lowerHexChar (c : Char) : Char :=
  if 'A' ≤ c ∧ c ≤ 'F' then Char.ofNat (c.toNat + 32) else c

/-- Uppercase an ASCII lowercase hex letter, other characters unchanged. -/

def upperHexChar (c : Char) : Char :=
  if 'a' ≤ c ∧ c ≤ 'f' then Char.ofNat (c.toNat - 32) else c

/-- The `replace(/^0x/i, '')` step of the web3 address helpers. -/

def stripHexTag (l : List Char) : List Char :=
  match l with
  | '0' :: 'x' :: rest => rest
  | '0' :: 'X' :: rest => rest
  | other => other

def addressShape (core : List Char) : Bool :=
  core.length = 40 && core.all isHexChar

/-- EIP-55 mixed-case re-encoding of 40 hex digits (any input case). -/

def checksumEncode (core : List Char) : List Char :=
  let lower := core.map lowerHexChar
  let hash := keccak256 (lower.map Char.toNat)
  let nibbles := hash.flatMap (fun b => [b / 16, b % 16])
  (List.range lower.length).map (fun i =>
    if 8 ≤ nibbles.getD i 0 then upperHexChar (lower.getD i ' ') else lower.getD i ' ')

/-- `web3.utils.toChecksumAddress`; `none` models the throw on bad shape. -/

def toChecksumAddress (address : String) : Option String :=
  let core := stripHexTag address.data
  if addressShape core then some (String.mk ('0' :: 'x' :: checksumEncode core))
  else none

/-- `web3.utils.isAddress`. -/

def isAddress (address : String) : Bool :=
  let core := stripHexTag address.data
  addressShape core &&
    (core.all isLowerHexChar || core.all isUpperHexChar || checksumEncode core == core)

set_option maxRecDepth 100000

/-! ## Constants of server.ts -/

def NAME : String := "DeFi Language Support"

def DIAGNOSTIC_TYPE_NOT_VALID_ADDRESS : String := "NotValidAddress"

def DIAGNOSTIC_TYPE_NOT_CHECKSUM_ADDRESS : String := "NotChecksumAddress"

def DIAGNOSTIC_TYPE_CONVERT_ENS_NAME : String := "ConvertENSName"

def CODE_LENS_TYPE_ETH_ADDRESS : String := "EthAddress"

def CODE_LENS_TYPE_ETH_PRIVATE_KEY : String := "EthPrivateKey"

def MAINNET : String := "mainnet"

def ROPSTEN : String := "ropsten"

def KOVAN : String := "kovan"

def RINKEBY : String := "rinkeby"

def GOERLI : String := "goerli"

def NETWORKS : List String := [MAINNET, ROPSTEN, KOVAN, RINKEBY, GOERLI]

/-! ## Data model

`Range` carries the pair of document offsets `m.index` and
`m.index + m[0].length`; the line/column conversion (`positionAt`) is the
external document collaborator's injective mapping of these offsets.
`start`/`stop` stand for the LSP range's `start`/`end`. -/

structure Range where
  start : Nat
  stop : Nat
  deriving DecidableEq

structure StringLocation where
  range : Range
  content : String
  deriving DecidableEq

/-! ## String helpers mirroring the JavaScript string operations used -/

/-- JavaScript `s.startsWith(p)` (all strings involved are ASCII). -/

def strStartsWith (s p : String) : Bool :=
  p.data.isPrefixOf s.data

/-- JavaScript `s.substring(n)` (all strings involved are ASCII). -/

def substringFrom (s : String) (n : Nat) : String :=
  String.mk (s.data.drop n)

/-- `normalizeHex` of server.ts: prepend `0x` when not already present. -/

def normalizeHex (hex : String) : String :=
  if !(strStartsWith hex "0x") then "0x" ++ hex else hex

/-! ## Span Scanner

`findPossibleEthereumAddresses` runs `/0x[0-9a-fA-F]{40}\b/g` with
`RegExp.exec` in a loop; `findPossiblePrivateKeys` runs
`/[0-9a-fA-F]{64}\b/g`.  `exec` finds the leftmost match at or after
`lastIndex` and then sets `lastIndex` past the match; `\b` holds between a
word character (`[0-9A-Za-z_]`) and a non-word character or the end of the
text.  Both loops declare a `problems` counter checked against the literal
`100` (the configured `settings.maxNumberOfProblems` is commented out in the
source), and neither loop ever increments it, so the guard `problems < 100`
stays `0 < 100` forever.  The recursion is fuelled by the text length, which
strictly dominates the number of loop steps. -/

def isWordChar (c : Char) : Bool :=
  ('0' ≤ c ∧ c ≤ '9') ∨ ('a' ≤ c ∧ c ≤ 'z') ∨ ('A' ≤ c ∧ c ≤ 'Z') ∨ c = '_'

/-- The `\b` test against the text following a match. -/

def boundaryOk : List Char → Bool
  | [] => true
  | c :: _ => !(isWordChar c)

/-- Does `/0x[0-9a-fA-F]{40}\b/` match at the head of `l`? -/

def addrMatchAt (l : List Char) : Bool :=
  decide (l.take 2 = ['0', 'x']) && decide (((l.drop 2).take 40).length = 40) &&
    ((l.drop 2).take 40).all isHexChar && boundaryOk ((l.drop 2).drop 40)

/-- Does `/[0-9a-fA-F]{64}\b/` match at the head of `l`? -/

def keyMatchAt (l : List Char) : Bool :=
  decide ((l.take 64).length = 64) && (l.take 64).all isHexChar && boundaryOk (l.drop 64)

def findAddrLoop : Nat → List Char → Nat → Nat → List StringLocation
  | 0, _, _, _ => []
  | _ + 1, [], _, _ => []
  | fuel + 1, c :: rest, pos, problems =>
    if addrMatchAt (c :: rest) then
      if problems < 100 then
        { range := ⟨pos, pos + 42⟩, content := String.mk ((c :: rest).take 42) } ::
          findAddrLoop fuel ((c :: rest).drop 42) (pos + 42) problems
      else []
    else findAddrLoop fuel rest (pos + 1) problems

def findPossiblePrivateKeysLoop : Nat → List Char → Nat → Nat → List StringLocation
  | 0, _, _, _ => []
  | _ + 1, [], _, _ => []
  | fuel + 1, c :: rest, pos, problems =>
    if keyMatchAt (c :: rest) then
      if problems < 100 then
        { range := ⟨pos, pos + 64⟩,
          content := normalizeHex (String.mk ((c :: rest).take 64)) } ::
          findPossiblePrivateKeysLoop fuel ((c :: rest).drop 64) (pos + 64) problems
      else []
    else findPossiblePrivateKeysLoop fuel rest (pos + 1) problems

/-- `findPossibleEthereumAddresses` of server.ts. -/

def findPossibleEthereumAddresses (text : String) : List StringLocation :=
  findAddrLoop text.data.length text.data 0 0

/-- `findPossiblePrivateKeys` of server.ts (the span content is the
`normalizeHex`-prefixed match, the range covers the raw match). -/

def findPossiblePrivateKeys (text : String) : List StringLocation :=
  findPossiblePrivateKeysLoop text.data.length text.data 0 0

/-- `isValidEthereumAddress` of server.ts. -/

def isValidEthereumAddress (address : String) : Bool :=
  isAddress address

/-! ## Name Resolver (`ethereum-ens` backend as an environment)

`EnsEnv` models an initialized `ens` object (`new ENS(web3provider)`):
`reverse a` is the settled outcome of `ens.reverse(a).name()` and
`resolveAddr n` the settled outcome of `ens.resolver(n).addr()`, with `none`
for a rejected promise (network failure, missing record, …).  The module
variable `ens` itself is `Option EnsEnv`: `none` is the uninitialized
`undefined`, on which `ens.reverse`/`ens.resolver` raises a `TypeError`
instead of returning a promise. -/

structure EnsEnv where
  reverse : String → Option String
  resolveAddr : String → Option String

def ZERO_ADDRESS : String := "0x0000000000000000000000000000000000000000"

/-- `ENSLookup` of server.ts: forward resolution; every rejection is caught
and the zero-address sentinel is treated as "no record", so the result is
`""` in both cases and the function never throws. -/

def ENSLookup (env : EnsEnv) (name : String) : String :=
  match env.resolveAddr name with
  | none => ""                         -- rejected: caught, result stays ""
  | some addr => if addr ≠ ZERO_ADDRESS then addr else ""

/-- `reverseENSLookup` of server.ts: reverse resolution confirmed by a
forward lookup.  A throw of `web3.utils.toChecksumAddress` inside the
`then`-callback (in particular on the `""` returned by a failed forward
lookup) rejects the chain and is swallowed by the `catch`, leaving `""`. -/

def reverseENSLookup (env : EnsEnv) (address : String) : String :=
  match env.reverse address with
  | none => ""                         -- reverse lookup rejected: caught
  | some name =>
    let addr := ENSLookup env name
    match toChecksumAddress address, toChecksumAddress addr with
    | some a, some b => if a = b then name else ""
    | _, _ => ""                       -- toChecksumAddress threw: caught

/-! ## Diagnostics and the validation pass -/

inductive DiagnosticSeverity where
  | Error
  | Warning
  | Information
  | Hint
  deriving DecidableEq

structure Diagnostic where
  severity : DiagnosticSeverity
  range : Range
  message : String
  source : String
  code : Option String
  deriving DecidableEq

structure DefiSettings where
  maxNumberOfProblems : Nat
  infuraProjectId : String
  infuraProjectSecret : String
  amberdataApiKey : String

def defaultSettings : DefiSettings :=
  { maxNumberOfProblems := 1000, infuraProjectId := "", infuraProjectSecret := "",
    amberdataApiKey := "" }

/-- The `addDiagnostic` closure of `validateTextDocument` (the
`relatedInformation` attached under a client capability repeats the range
and a detail string and carries no further state). -/

def addDiagnostic (element : StringLocation) (message : String)
    (severity : DiagnosticSeverity) (code : Option String) : Diagnostic :=
  { severity := severity, range := element.range, message := message,
    source := NAME, code := code }

/-- The body of the `for` loop of `validateTextDocument` over the scanned
candidates.  `ensOpt` is the module variable `ens` during this pass.  The
`Except.error` cases are the unhandled JavaScript exceptions that reject the
pass: `web3.utils.toChecksumAddress` throwing outside any `catch`, and
`ens.reverse` called on an undefined `ens` (both reject the promise of
`validateTextDocument`, so `sendDiagnostics` never runs). -/

def validateLoop (ensOpt : Option EnsEnv) (settings : DefiSettings) :
    List StringLocation → Nat → List Diagnostic → Except Unit (List Diagnostic)
  | [], _, diagnostics => .ok diagnostics
  | element :: rest, problems, diagnostics =>
    if problems < settings.maxNumberOfProblems then
      let problems := problems + 1
      if !(isValidEthereumAddress element.content) then
        validateLoop ensOpt settings rest problems
          (diagnostics ++ [addDiagnostic element
            (element.content ++ " is not a valid Ethereum address")
            .Error (some DIAGNOSTIC_TYPE_NOT_VALID_ADDRESS)])
      else
        match toChecksumAddress element.content with
        | none => .error ()            -- toChecksumAddress threw: pass rejects
        | some checksumAddress =>
          let diagnostics :=
            if element.content ≠ checksumAddress then
              diagnostics ++ [addDiagnostic element
                (element.content ++ " is not a checksum address")
                .Warning (some (DIAGNOSTIC_TYPE_NOT_CHECKSUM_ADDRESS ++ checksumAddress))]
            else diagnostics
          match ensOpt with
          | none => .error ()          -- ens is undefined: TypeError, pass rejects
          | some env =>
            let ensName := reverseENSLookup env element.content
            let diagnostics :=
              if ensName ≠ "" then
                diagnostics ++ [addDiagnostic element
                  (element.content ++ " can be converted to its ENS name \"" ++
                    ensName ++ "\"")
                  .Hint (some (DIAGNOSTIC_TYPE_CONVERT_ENS_NAME ++ ensName))]
              else diagnostics
            validateLoop ensOpt settings rest problems diagnostics
    else validateLoop ensOpt settings rest problems diagnostics

/-- `validateTextDocument` of server.ts.  `priorEns` is the module variable
`ens` before the pass; with a non-empty `infuraProjectId` the pass installs
a fresh `new ENS(...)` client (`newEns`), otherwise it only logs and leaves
`ens` as it was.  `.ok ds` means the pass completed and published `ds` via
`sendDiagnostics`; `.error ()` means its promise rejected first. -/

def validateTextDocument (priorEns : Option EnsEnv) (newEns : EnsEnv)
    (settings : DefiSettings) (text : String) : Except Unit (List Diagnostic) :=
  validateLoop (if settings.infuraProjectId = "" then priorEns else some newEns)
    settings (findPossibleEthereumAddresses text) 0 []

/-! ## Code lenses -/

/-- The payload of `Command.create` (only attached on resolve). -/

structure CommandData where
  title : String
  command : String
  argument : String
  deriving DecidableEq

/-- The `data` array `[codeLensType, network, content]` of a lens. -/

structure CodeLensData where
  lensType : String
  network : String
  content : String
  deriving DecidableEq

structure CodeLens where
  range : Range
  data : CodeLensData
  command : Option CommandData
  deriving DecidableEq

/-- `pushEthereumAddressCodeLenses` of server.ts: one lens per network in
`NETWORKS`, pushed onto the accumulator; no command is attached (resolution
is deferred to `connection.onCodeLensResolve`). -/

def pushEthereumAddressCodeLenses (codeLensType : String) (range : Range)
    (content : String) (codeLenses : List CodeLens) : List CodeLens :=
  NETWORKS.foldl (fun acc network =>
    acc ++ [{ range := range, data := ⟨codeLensType, network, content⟩, command := none }])
    codeLenses

/-- The key-derivation collaborators: `EthUtil.toBuffer` and
`Wallet.fromPrivateKey` (ethereumjs), with `none` for a throw, and
`web3.eth.accounts.privateKeyToAccount(k).address` as `toPublicKeyFn`. -/

structure KeyEnv where
  toBuffer : String → Option (List Nat)
  fromPrivateKey : List Nat → Option Unit
  toPublicKeyFn : String → String

/-- `isPrivateKey` of server.ts: the whole derivation attempt sits in a
`try`/`catch` that returns `false`, so a throw at either stage (bad shape,
failed derivation) is classified as "not a private key" instead of
propagating. -/

def isPrivateKey (kenv : KeyEnv) (possiblePrivateKey : String) : Bool :=
  match kenv.toBuffer possiblePrivateKey with
  | none => false
  | some privateKeyBuffer =>
    match kenv.fromPrivateKey privateKeyBuffer with
    | none => false
    | some _ => true

/-- `toPublicKey` of server.ts. -/

def toPublicKey (kenv : KeyEnv) (privateKey : String) : String :=
  kenv.toPublicKeyFn privateKey

/-- The `connection.onCodeLens` handler body for an open document with text
`text`: valid address spans and derivable private-key spans each push one
lens per network (the two `forEach` loops run in sequence over the shared
`codeLenses` array, starting from empty). -/

def connectionOnCodeLens (kenv : KeyEnv) (text : String) : List CodeLens :=
  (findPossiblePrivateKeys text).foldl
    (fun acc element =>
      if isPrivateKey kenv element.content then
        pushEthereumAddressCodeLenses CODE_LENS_TYPE_ETH_PRIVATE_KEY element.range
          (toPublicKey kenv element.content) acc
      else acc)
    ((findPossibleEthereumAddresses text).foldl
      (fun acc element =>
        if isValidEthereumAddress element.content then
          pushEthereumAddressCodeLenses CODE_LENS_TYPE_ETH_ADDRESS element.range
            element.content acc
        else acc)
      [])

/-! ## Quick fixes -/

structure TextEdit where
  range : Range
  newText : String
  deriving DecidableEq

/-- `WorkspaceEdit.changes`: URI to edit list. -/

structure WorkspaceEdit where
  changes : List (String × List TextEdit)
  deriving DecidableEq

structure CodeAction where
  title : String
  kind : String
  edit : WorkspaceEdit
  diagnostics : List Diagnostic
  deriving DecidableEq

def CodeActionKindQuickFix : String := "quickfix"

/-- JavaScript `String(diagnostic.code)` (an absent code stringifies). -/

def codeString (d : Diagnostic) : String :=
  match d.code with
  | some s => s
  | none => "undefined"

/-- `getQuickFix` of server.ts. -/

def getQuickFix (diagnostic : Diagnostic) (title : String) (range : Range)
    (replacement : String) (uri : String) : CodeAction :=
  { title := title, kind := CodeActionKindQuickFix,
    edit := { changes := [(uri, [{ range := range, newText := replacement }])] },
    diagnostics := [diagnostic] }

/-- The body of the `diagnostics.forEach` of `getCodeActions`. -/

def codeActionStep (uri : String) (codeActions : List CodeAction)
    (diagnostic : Diagnostic) : List CodeAction :=
  if strStartsWith (codeString diagnostic) DIAGNOSTIC_TYPE_NOT_CHECKSUM_ADDRESS then
    codeActions ++ [getQuickFix diagnostic "Convert to checksum address"
      diagnostic.range
      (substringFrom (codeString diagnostic) DIAGNOSTIC_TYPE_NOT_CHECKSUM_ADDRESS.length)
      uri]
  else if strStartsWith (codeString diagnostic) DIAGNOSTIC_TYPE_CONVERT_ENS_NAME then
    codeActions ++ [getQuickFix diagnostic
      ("Convert to ENS name \"" ++
        substringFrom (codeString diagnostic) DIAGNOSTIC_TYPE_CONVERT_ENS_NAME.length ++
        "\"")
      diagnostic.range
      (substringFrom (codeString diagnostic) DIAGNOSTIC_TYPE_CONVERT_ENS_NAME.length) uri]
  else codeActions

/-- `getCodeActions` of server.ts (the document argument is only used for
its URI). -/

def getCodeActions (diagnostics : List Diagnostic) (uri : String) : List CodeAction :=
  diagnostics.foldl (codeActionStep uri) []

/-! ## Helper definitions and concrete fixtures

Characterization helpers (`diagnosticsFor`, `warningsAt`, `sliceStr`) and
the concrete environments, settings and documents used by witnesses and
counterexamples. -/

/-- The document text at an offset range (the characters a diagnostic or
lens range points at). -/
def sliceStr (text : String) (a b : Nat) : String :=
  String.mk ((text.data.drop a).take (b - a))

/-- The diagnostics one processed candidate contributes to a pass whose
ENS client is `env`: an error for an invalid address, otherwise a warning
when the text is not in checksum form and a hint when a confirmed reverse
ENS name exists. -/
def diagnosticsFor (env : EnsEnv) (element : StringLocation) : List Diagnostic :=
  if !(isValidEthereumAddress element.content) then
    [addDiagnostic element (element.content ++ " is not a valid Ethereum address")
      .Error (some DIAGNOSTIC_TYPE_NOT_VALID_ADDRESS)]
  else
    (if element.content ≠ (toChecksumAddress element.content).getD "" then
      [addDiagnostic element (element.content ++ " is not a checksum address")
        .Warning (some (DIAGNOSTIC_TYPE_NOT_CHECKSUM_ADDRESS ++
          (toChecksumAddress element.content).getD ""))]
     else []) ++
    (if reverseENSLookup env element.content ≠ "" then
       [addDiagnostic element
         (element.content ++ " can be converted to its ENS name \"" ++
           reverseENSLookup env element.content ++ "\"")
         .Hint (some (DIAGNOSTIC_TYPE_CONVERT_ENS_NAME ++
           reverseENSLookup env element.content))]
     else [])

/-- The warning-level diagnostics of a pass that are anchored at a range. -/
def warningsAt (ds : List Diagnostic) (r : Range) : List Diagnostic :=
  ds.filter (fun d =>
    decide (d.severity = DiagnosticSeverity.Warning) && decide (d.range = r))

/-- An ENS backend on which every remote call fails. -/
def ensFail : EnsEnv := ⟨fun _ => none, fun _ => none⟩

def vitalikLower : String := "0xd8da6bf26964af9d7eed9e03e53415d37aa96045"

def vitalikChecksum : String := "0xd8dA6BF26964aF9D7eEd9e03E53415D37aA96045"

/-- An ENS backend holding a consistent reverse record for the fixture
address. -/
def ensVitalik : EnsEnv :=
  ⟨fun a => if a = vitalikLower then some "vitalik.eth" else none,
   fun n => if n = "vitalik.eth" then some vitalikChecksum else none⟩

/-- An ENS backend whose reverse record is unconfirmed: the forward lookup
of the reported name fails. -/
def ensUnconfirmed : EnsEnv := ⟨fun _ => some "bad.eth", fun _ => none⟩

/-- An ENS backend where one name resolves to the zero-address sentinel
and every other call fails. -/
def ensZeroRecord : EnsEnv :=
  ⟨fun _ => none, fun n => if n = "zero.eth" then some ZERO_ADDRESS else none⟩

/-- A derivation backend that throws on buffer conversion. -/
def keyEnvRejectBuffer : KeyEnv := ⟨fun _ => none, fun _ => none, fun _ => ""⟩

/-- A derivation backend that converts buffers but rejects every key. -/
def keyEnvRejectKey : KeyEnv := ⟨fun _ => some [], fun _ => none, fun _ => ""⟩

/-- A published checksum diagnostic as the quick-fix fixture. -/
def c7DiagChecksum : Diagnostic :=
  { severity := .Warning, range := ⟨3, 7⟩, message := "m", source := NAME,
    code := some "NotChecksumAddress0xAB" }

/-- A published diagnostic with no recognized remediation marker. -/
def c7DiagUnknown : Diagnostic :=
  { severity := .Hint, range := ⟨1, 2⟩, message := "m", source := NAME,
    code := some "NotValidAddress" }

/-- A document that is one 64-hex-character run. -/
def c10Text : String := String.mk (List.replicate 64 'b')

/-- The span the private-key scanner reports on `c10Text`. -/
def c10Span : StringLocation := ⟨⟨0, 64⟩, "0x" ++ c10Text⟩

/-- Settings with Infura credentials present and the default problem cap. -/
def credSettings : DefiSettings := { defaultSettings with infuraProjectId := "infura-id" }

/-- Settings with credentials present and a problem cap of one. -/
def c2Settings : DefiSettings :=
  { defaultSettings with infuraProjectId := "infura-id", maxNumberOfProblems := 1 }

/-- A well-formed all-lowercase address token. -/
def capToken : String := "0x" ++ String.mk (List.replicate 40 'a')

/-- 101 space-separated well-formed address tokens. -/
def capText : String :=
  String.mk (List.flatten (List.replicate 101 (capToken.data ++ [' '])))

/-- Three space-separated well-formed address tokens. -/
def smallCapText : String :=
  String.mk (List.flatten (List.replicate 3 (capToken.data ++ [' '])))

/-- Settings with credentials present and a zero problem cap. -/
def c6Settings : DefiSettings :=
  { defaultSettings with infuraProjectId := "infura-id", maxNumberOfProblems := 0 }

/-! ## Scanner invariants -/

theorem addrMatchAt_structure {l : List Char} (h : addrMatchAt l = true) :
    ∃ core tail, l = ('0' :: 'x' :: core) ++ tail ∧ core.length = 40 ∧
      core.all isHexChar = true ∧ boundaryOk tail = true := by
  simp only [addrMatchAt, Bool.and_eq_true, decide_eq_true_eq] at h
  obtain ⟨⟨⟨h2, hlen⟩, hhex⟩, hb⟩ := h
  refine ⟨(l.drop 2).take 40, (l.drop 2).drop 40, ?_, hlen, hhex, hb⟩
  calc l = ['0', 'x'] ++ l.drop 2 := by
            conv_lhs => rw [← List.take_append_drop 2 l]
            rw [h2]
    _ = ['0', 'x'] ++ ((l.drop 2).take 40 ++ (l.drop 2).drop 40) := by
            rw [List.take_append_drop]
    _ = ('0' :: 'x' :: (l.drop 2).take 40) ++ (l.drop 2).drop 40 := by simp

theorem keyMatchAt_structure {l : List Char} (h : keyMatchAt l = true) :
    ∃ raw tail, l = raw ++ tail ∧ raw.length = 64 ∧
      raw.all isHexChar = true ∧ boundaryOk tail = true ∧ l.take 64 = raw := by
  simp only [keyMatchAt, Bool.and_eq_true, decide_eq_true_eq] at h
  obtain ⟨⟨hlen, hhex⟩, hb⟩ := h
  exact ⟨l.take 64, l.drop 64, (List.take_append_drop 64 l).symm, hlen, hhex, hb, rfl⟩

/-- Structure of every span the address scanner returns: it starts at or
after the scan position, covers 42 characters of the text suffix, and its
content is exactly those characters, `0x` followed by 40 hex digits. -/

theorem findAddrLoop_mem :
    ∀ (fuel : Nat) (chars : List Char) (pos problems : Nat)
      (e : StringLocation), e ∈ findAddrLoop fuel chars pos problems →
      pos ≤ e.range.start ∧ e.range.stop = e.range.start + 42 ∧
      ∃ core, e.content = String.mk ('0' :: 'x' :: core) ∧ core.length = 40 ∧
        core.all isHexChar = true ∧
        (chars.drop (e.range.start - pos)).take 42 = '0' :: 'x' :: core := by
  intro fuel
  induction fuel with
  | zero => intro chars pos problems e he; simp [findAddrLoop] at he
  | succ fuel ih =>
    intro chars pos problems e he
    match chars with
    | [] => simp [findAddrLoop] at he
    | c :: rest =>
      rw [findAddrLoop] at he
      by_cases hm : addrMatchAt (c :: rest) = true
      · rw [if_pos hm] at he
        by_cases hp : problems < 100
        · rw [if_pos hp] at he
          rcases List.mem_cons.mp he with he | he
          · subst he
            obtain ⟨core, tail, hl, hlen, hhex, _⟩ := addrMatchAt_structure hm
            have htk : (c :: rest).take 42 = '0' :: 'x' :: core := by
              rw [hl]
              exact List.take_left' (by simp [hlen])
            refine ⟨Nat.le_refl _, rfl, core, ?_, hlen, hhex, ?_⟩
            · rw [htk]
            · simpa only [Nat.sub_self, List.drop_zero] using htk
          · obtain ⟨h1, h2, core, h3, h4, h5, h6⟩ :=
              ih ((c :: rest).drop 42) (pos + 42) problems e he
            refine ⟨by omega, h2, core, h3, h4, h5, ?_⟩
            rw [List.drop_drop] at h6
            have : 42 + (e.range.start - (pos + 42)) = e.range.start - pos := by omega
            rwa [this] at h6
        · rw [if_neg hp] at he; simp at he
      · rw [if_neg hm] at he
        obtain ⟨h1, h2, core, h3, h4, h5, h6⟩ := ih rest (pos + 1) problems e he
        refine ⟨by omega, h2, core, h3, h4, h5, ?_⟩
        have hd : rest.drop (e.range.start - (pos + 1)) =
            (c :: rest).drop (e.range.start - pos) := by
          have : e.range.start - pos = (e.range.start - (pos + 1)) + 1 := by omega
          rw [this, List.drop_succ_cons]
        rwa [hd] at h6

/-- The spans the address scanner returns are strictly ordered: each starts
at least 42 characters after the previous one. -/

theorem findAddrLoop_pairwise :
    ∀ (fuel : Nat) (chars : List Char) (pos problems : Nat),
      (findAddrLoop fuel chars pos problems).Pairwise
        (fun a b => a.range.start + 42 ≤ b.range.start) := by
  intro fuel
  induction fuel with
  | zero => intro chars pos problems; simp [findAddrLoop]
  | succ fuel ih =>
    intro chars pos problems
    match chars with
    | [] => simp [findAddrLoop]
    | c :: rest =>
      rw [findAddrLoop]
      by_cases hm : addrMatchAt (c :: rest) = true
      · rw [if_pos hm]
        by_cases hp : problems < 100
        · rw [if_pos hp]
          refine List.pairwise_cons.mpr ⟨?_, ih _ _ _⟩
          intro b hb
          have := (findAddrLoop_mem fuel _ _ _ b hb).1
          simpa using this
        · rw [if_neg hp]; simp
      · rw [if_neg hm]; exact ih _ _ _

/-- `normalizeHex` genuinely prepends on a hex run: a string of hex digits
cannot start with `0x` because `x` is not a hex digit. -/

theorem normalizeHex_all_hex {raw : List Char} (hhex : raw.all isHexChar = true) :
    normalizeHex (String.mk raw) = "0x" ++ String.mk raw := by
  rw [normalizeHex, if_pos]
  simp only [strStartsWith, Bool.not_eq_eq_eq_not, Bool.not_true]
  match raw, hhex with
  | [], _ => rfl
  | [c], _ => simp [List.isPrefixOf]
  | c1 :: c2 :: rest, hhex =>
    simp only [List.all_cons, Bool.and_eq_true] at hhex
    show (('0' == c1) && (('x' == c2) && List.isPrefixOf [] rest)) = false
    have : ('x' == c2) = false := by
      cases h : ('x' == c2)
      · rfl
      · exact absurd hhex.2.1 (by simp [beq_iff_eq] at h; rw [← h]; decide)
    simp [this]

/-- Structure of every span the private-key scanner returns: the range
covers 64 characters of the text suffix, and the content is `0x` prepended
to exactly those characters. -/

theorem findPossiblePrivateKeysLoop_mem :
    ∀ (fuel : Nat) (chars : List Char) (pos problems : Nat)
      (e : StringLocation), e ∈ findPossiblePrivateKeysLoop fuel chars pos problems →
      pos ≤ e.range.start ∧ e.range.stop = e.range.start + 64 ∧
      ∃ raw, raw.length = 64 ∧ raw.all isHexChar = true ∧
        e.content = "0x" ++ String.mk raw ∧
        (chars.drop (e.range.start - pos)).take 64 = raw := by
  intro fuel
  induction fuel with
  | zero => intro chars pos problems e he; simp [findPossiblePrivateKeysLoop] at he
  | succ fuel ih =>
    intro chars pos problems e he
    match chars with
    | [] => simp [findPossiblePrivateKeysLoop] at he
    | c :: rest =>
      rw [findPossiblePrivateKeysLoop] at he
      by_cases hm : keyMatchAt (c :: rest) = true
      · rw [if_pos hm] at he
        by_cases hp : problems < 100
        · rw [if_pos hp] at he
          rcases List.mem_cons.mp he with he | he
          · subst he
            obtain ⟨raw, tail, _, hlen, hhex, _, htk⟩ := keyMatchAt_structure hm
            refine ⟨Nat.le_refl _, rfl, raw, hlen, hhex, ?_, ?_⟩
            · rw [htk]
              exact normalizeHex_all_hex hhex
            · simpa only [Nat.sub_self, List.drop_zero] using htk
          · obtain ⟨h1, h2, raw, h3, h4, h5, h6⟩ :=
              ih ((c :: rest).drop 64) (pos + 64) problems e he
            refine ⟨by omega, h2, raw, h3, h4, h5, ?_⟩
            rw [List.drop_drop] at h6
            have : 64 + (e.range.start - (pos + 64)) = e.range.start - pos := by omega
            rwa [this] at h6
        · rw [if_neg hp] at he; simp at he
      · rw [if_neg hm] at he
        obtain ⟨h1, h2, raw, h3, h4, h5, h6⟩ := ih rest (pos + 1) problems e he
        refine ⟨by omega, h2, raw, h3, h4, h5, ?_⟩
        have hd : rest.drop (e.range.start - (pos + 1)) =
            (c :: rest).drop (e.range.start - pos) := by
          have : e.range.start - pos = (e.range.start - (pos + 1)) + 1 := by omega
          rw [this, List.drop_succ_cons]
        rwa [hd] at h6

/-! ## Validation pass: characterization lemmas -/

/-- The content of every address span has the `0x` + 40-hex shape, so
`web3.utils.toChecksumAddress` succeeds on it. -/

theorem toChecksumAddress_of_shape {core : List Char} (hlen : core.length = 40)
    (hhex : core.all isHexChar = true) :
    toChecksumAddress (String.mk ('0' :: 'x' :: core)) =
      some (String.mk ('0' :: 'x' :: checksumEncode core)) := by
  rw [toChecksumAddress]
  have hstrip : stripHexTag (String.mk ('0' :: 'x' :: core)).data = core := rfl
  rw [hstrip, addressShape]
  simp [hlen, hhex]

theorem addr_span_checksum_isSome {text : String} {e : StringLocation}
    (he : e ∈ findPossibleEthereumAddresses text) :
    (toChecksumAddress e.content).isSome = true := by
  obtain ⟨_, _, core, h3, h4, h5, _⟩ :=
    findAddrLoop_mem text.data.length text.data 0 0 e he
  rw [h3, toChecksumAddress_of_shape h4 h5]
  rfl

/-- `diagnosticsFor` on a valid candidate whose checksum encoding is `cs`. -/

theorem diagnosticsFor_valid (env : EnsEnv) (element : StringLocation) (cs : String)
    (hv : isValidEthereumAddress element.content = true)
    (hcs : toChecksumAddress element.content = some cs) :
    diagnosticsFor env element =
      (if element.content ≠ cs then
        [addDiagnostic element (element.content ++ " is not a checksum address")
          .Warning (some (DIAGNOSTIC_TYPE_NOT_CHECKSUM_ADDRESS ++ cs))]
       else []) ++
      (if reverseENSLookup env element.content ≠ "" then
        [addDiagnostic element
          (element.content ++ " can be converted to its ENS name \"" ++
            reverseENSLookup env element.content ++ "\"")
          .Hint (some (DIAGNOSTIC_TYPE_CONVERT_ENS_NAME ++
            reverseENSLookup env element.content))]
       else []) := by
  rw [diagnosticsFor, if_neg (by simp [hv]), hcs]
  simp only [Option.getD_some]

/-- `diagnosticsFor` on an invalid candidate: one error diagnostic. -/

theorem diagnosticsFor_invalid (env : EnsEnv) (element : StringLocation)
    (hv : isValidEthereumAddress element.content = false) :
    diagnosticsFor env element =
      [addDiagnostic element (element.content ++ " is not a valid Ethereum address")
        .Error (some DIAGNOSTIC_TYPE_NOT_VALID_ADDRESS)] := by
  rw [diagnosticsFor, if_pos (by simp [hv])]

/-- With an initialized ENS client and shape-valid candidates, the loop
completes and appends, in scan order, the diagnostics of the first
`maxNumberOfProblems` candidates. -/

theorem validateLoop_ok (env : EnsEnv) (settings : DefiSettings) :
    ∀ (els : List StringLocation) (problems : Nat) (acc : List Diagnostic),
      (∀ e ∈ els, (toChecksumAddress e.content).isSome = true) →
      validateLoop (some env) settings els problems acc =
        .ok (acc ++ (els.take (settings.maxNumberOfProblems - problems)).flatMap
          (diagnosticsFor env)) := by
  intro els
  induction els with
  | nil => intro problems acc _; simp [validateLoop]
  | cons element rest ih =>
    intro problems acc hsome
    have hrest : ∀ e ∈ rest, (toChecksumAddress e.content).isSome = true :=
      fun e he => hsome e (List.mem_cons_of_mem _ he)
    by_cases hp : problems < settings.maxNumberOfProblems
    · have hk : settings.maxNumberOfProblems - problems =
          (settings.maxNumberOfProblems - (problems + 1)) + 1 := by omega
      rw [validateLoop, if_pos hp]
      by_cases hv : isValidEthereumAddress element.content = true
      · obtain ⟨cs, hcs⟩ :=
          Option.isSome_iff_exists.mp (hsome element (List.mem_cons_self _ _))
        simp only [hv, Bool.not_true, Bool.false_eq_true, if_false]
        split
        · rename_i heq
          rw [heq] at hcs
          exact absurd hcs (by simp)
        · rename_i checksumAddress heq
          rw [heq] at hcs
          injection hcs with hcs'
          subst hcs'
          rw [ih _ _ hrest, hk, List.take_succ_cons, List.flatMap_cons,
            diagnosticsFor_valid env element checksumAddress hv heq]
          by_cases hne : element.content ≠ checksumAddress
          · by_cases hens : reverseENSLookup env element.content ≠ ""
            · simp [hne, hens]
            · simp [hne, hens]
          · by_cases hens : reverseENSLookup env element.content ≠ ""
            · simp [hne, hens]
            · simp [hne, hens]
      · have hv' : isValidEthereumAddress element.content = false := by
          simpa using hv
        simp only [hv', Bool.not_false, if_true]
        rw [ih _ _ hrest, hk, List.take_succ_cons, List.flatMap_cons,
          diagnosticsFor_invalid env element hv']
        simp
    · have hk : settings.maxNumberOfProblems - problems = 0 := by omega
      rw [validateLoop, if_neg hp, ih _ _ hrest, hk]
      simp

/-- Each processed candidate contributes at most two diagnostics. -/

theorem diagnosticsFor_length_le (env : EnsEnv) (element : StringLocation) :
    (diagnosticsFor env element).length ≤ 2 := by
  rw [diagnosticsFor]
  split
  · simp
  · simp only [List.length_append]
    split <;> split <;> simp

/-- Every diagnostic a candidate contributes is anchored to its range. -/

theorem diagnosticsFor_range {env : EnsEnv} {element : StringLocation}
    {d : Diagnostic} (hd : d ∈ diagnosticsFor env element) :
    d.range = element.range := by
  rw [diagnosticsFor] at hd
  split at hd
  · simp at hd; subst hd; rfl
  · rw [List.mem_append] at hd
    rcases hd with hd | hd
    · split at hd
      · simp at hd; subst hd; rfl
      · simp at hd
    · split at hd
      · simp at hd; subst hd; rfl
      · simp at hd

/-- Whatever the environment does and wherever the pass stops, a completed
pass has produced at most two diagnostics per processed candidate. -/

theorem validateLoop_length_le (settings : DefiSettings) :
    ∀ (els : List StringLocation) (ensOpt : Option EnsEnv) (problems : Nat)
      (acc ds : List Diagnostic),
      validateLoop ensOpt settings els problems acc = .ok ds →
      ds.length ≤ acc.length + 2 * (settings.maxNumberOfProblems - problems) := by
  intro els
  induction els with
  | nil =>
    intro ensOpt problems acc ds h
    rw [validateLoop] at h
    injection h with h
    subst h
    exact Nat.le_add_right _ _
  | cons element rest ih =>
    intro ensOpt problems acc ds h
    rw [validateLoop] at h
    by_cases hp : problems < settings.maxNumberOfProblems
    · rw [if_pos hp] at h
      by_cases hv : isValidEthereumAddress element.content = true
      · simp only [hv, Bool.not_true, Bool.false_eq_true, if_false] at h
        split at h
        · exact absurd h (by simp)
        · split at h
          · exact absurd h (by simp)
          · rename_i env
            have hb := ih (some env) (problems + 1) _ ds h
            split at hb <;> split at hb <;>
              (try simp only [List.length_append, List.length_cons, List.length_nil] at hb) <;>
              omega
      · have hv' : isValidEthereumAddress element.content = false := by
          simpa using hv
        simp only [hv', Bool.not_false, if_true] at h
        have hb := ih ensOpt (problems + 1) _ ds h
        simp only [List.length_append, List.length_cons, List.length_nil] at hb
        omega
    · rw [if_neg hp] at h
      exact ih ensOpt problems acc ds h

/-- The warning-level diagnostics of a pass that are anchored at a range. -/

theorem warningsAt_append (x y : List Diagnostic) (r : Range) :
    warningsAt (x ++ y) r = warningsAt x r ++ warningsAt y r := by
  simp [warningsAt]

/-- A candidate at a different range contributes no warning at `r`. -/

theorem warningsAt_diagnosticsFor_other {env : EnsEnv} {a : StringLocation}
    {r : Range} (h : a.range ≠ r) :
    warningsAt (diagnosticsFor env a) r = [] := by
  rw [warningsAt, List.filter_eq_nil_iff]
  intro d hd
  have := diagnosticsFor_range hd
  simp [this, h]

/-- A valid candidate not in checksum form contributes exactly its one
checksum warning at its own range. -/

theorem warningsAt_diagnosticsFor_self {env : EnsEnv} {element : StringLocation}
    {cs : String} (hv : isValidEthereumAddress element.content = true)
    (hcs : toChecksumAddress element.content = some cs) (hne : cs ≠ element.content) :
    warningsAt (diagnosticsFor env element) element.range =
      [addDiagnostic element (element.content ++ " is not a checksum address")
        .Warning (some (DIAGNOSTIC_TYPE_NOT_CHECKSUM_ADDRESS ++ cs))] := by
  rw [diagnosticsFor_valid env element cs hv hcs, if_pos (Ne.symm hne),
    warningsAt, List.filter_append]
  split
  · simp [addDiagnostic]
  · simp [addDiagnostic]

theorem warningsAt_flatMap_nil {env : EnsEnv} {r : Range} :
    ∀ (l : List StringLocation), (∀ a ∈ l, a.range ≠ r) →
      warningsAt (l.flatMap (diagnosticsFor env)) r = [] := by
  intro l
  induction l with
  | nil => intro _; simp [warningsAt]
  | cons a rest ih =>
    intro h
    rw [List.flatMap_cons, warningsAt_append,
      warningsAt_diagnosticsFor_other (h a (List.mem_cons_self _ _)),
      ih (fun b hb => h b (List.mem_cons_of_mem _ hb))]
    rfl

/-- Among pairwise-separated candidates, the warnings anchored at a valid
non-checksum candidate's range are exactly its own single warning. -/

theorem warningsAt_flatMap (env : EnsEnv) :
    ∀ (l : List StringLocation) (e : StringLocation) (cs : String),
      l.Pairwise (fun a b => a.range.start + 42 ≤ b.range.start) →
      e ∈ l →
      isValidEthereumAddress e.content = true →
      toChecksumAddress e.content = some cs →
      cs ≠ e.content →
      warningsAt (l.flatMap (diagnosticsFor env)) e.range =
        [addDiagnostic e (e.content ++ " is not a checksum address")
          .Warning (some (DIAGNOSTIC_TYPE_NOT_CHECKSUM_ADDRESS ++ cs))] := by
  intro l
  induction l with
  | nil => intro e cs _ he; simp at he
  | cons a rest ih =>
    intro e cs hpw he hv hcs hne
    obtain ⟨ha, hrest⟩ := List.pairwise_cons.mp hpw
    rw [List.flatMap_cons, warningsAt_append]
    rcases List.mem_cons.mp he with he | he
    · subst he
      rw [warningsAt_diagnosticsFor_self hv hcs hne,
        warningsAt_flatMap_nil rest (fun b hb => ?_)]
      · rfl
      · intro hEq
        have := congrArg Range.start hEq
        have := ha b hb
        omega
    · rw [warningsAt_diagnosticsFor_other (fun hEq => ?_), ih e cs hrest he hv hcs hne]
      · rfl
      · have := congrArg Range.start hEq
        have := ha e he
        omega

/-! ## Generic loop-shape lemmas for the `forEach`-push handlers -/

theorem foldl_append_singleton {α β : Type} (f : α → β) :
    ∀ (l : List α) (acc : List β),
      l.foldl (fun a x => a ++ [f x]) acc = acc ++ l.map f := by
  intro l
  induction l with
  | nil => intro acc; simp
  | cons x rest ih => intro acc; simp [ih]

theorem foldl_filter_flatMap {α β : Type} (p : α → Bool) (g : α → List β) :
    ∀ (l : List α) (acc : List β),
      l.foldl (fun a x => if p x then a ++ g x else a) acc
        = acc ++ (l.filter p).flatMap g := by
  intro l
  induction l with
  | nil => intro acc; simp
  | cons x rest ih =>
    intro acc
    by_cases hx : p x = true <;> simp [hx, ih]

/-- Dropping the length of a prefix recovers exactly the text embedded
after it (JavaScript `substring(prefix.length)`). -/

theorem substringFrom_append (a b : String) : substringFrom (a ++ b) a.length = b := by
  cases a with
  | mk la =>
    cases b with
    | mk lb =>
      show String.mk (((String.mk la) ++ (String.mk lb)).data.drop (String.mk la).length)
        = String.mk lb
      have h1 : ((String.mk la) ++ (String.mk lb)).data = la ++ lb := rfl
      have h2 : (String.mk la).length = la.length := rfl
      rw [h1, h2, List.drop_left]

/-! ## Concrete fixtures used by witnesses and counterexamples -/

/-! ## Claim C4 -/

/-- C4: `reverseENSLookup` returns a non-empty name only when the forward
lookup of that name round-trips, after checksum normalization, to the very
address being looked up; when the forward lookup fails or round-trips to a
different address, the reverse result is discarded and `""` is returned. -/

theorem claim_C4_reverse_lookup_confirmed (env : EnsEnv) (address : String) :
    (reverseENSLookup env address ≠ "" →
      env.reverse address = some (reverseENSLookup env address) ∧
      ∃ ca, toChecksumAddress address = some ca ∧
        toChecksumAddress (ENSLookup env (reverseENSLookup env address)) = some ca) ∧
    (∀ name, env.reverse address = some name →
      (toChecksumAddress (ENSLookup env name) = none ∨
        toChecksumAddress (ENSLookup env name) ≠ toChecksumAddress address) →
      reverseENSLookup env address = "") := by
  constructor
  · intro h
    cases hr : env.reverse address with
    | none => simp [reverseENSLookup, hr] at h
    | some name =>
      cases ha : toChecksumAddress address with
      | none => simp [reverseENSLookup, hr, ha] at h
      | some a =>
        cases hb : toChecksumAddress (ENSLookup env name) with
        | none => simp [reverseENSLookup, hr, ha, hb] at h
        | some b =>
          simp only [reverseENSLookup, hr, ha, hb] at h ⊢
          by_cases hab : a = b
          · rw [if_pos hab] at h ⊢
            exact ⟨rfl, a, rfl, by rw [hb, hab]⟩
          · rw [if_neg hab] at h; exact absurd rfl h
  · intro name hr hbad
    cases ha : toChecksumAddress address with
    | none => simp [reverseENSLookup, hr, ha]
    | some a =>
      cases hb : toChecksumAddress (ENSLookup env name) with
      | none => simp [reverseENSLookup, hr, ha, hb]
      | some b =>
        rcases hbad with hbad | hbad
        · rw [hb] at hbad; exact absurd hbad (by simp)
        · rw [hb, ha] at hbad
          simp only [reverseENSLookup, hr, ha, hb]
          rw [if_neg (fun hEq => hbad (by rw [hEq]))]

/-- Witness for C4: with a consistent backend the confirmed name is
returned together with the round-tripped checksum address; with an
unconfirmed backend (forward lookup fails) the reverse result is
discarded. -/

theorem claim_C4_witness :
    (reverseENSLookup ensVitalik vitalikLower ≠ "" ∧
      ∃ ca, toChecksumAddress vitalikLower = some ca ∧
        toChecksumAddress
          (ENSLookup ensVitalik (reverseENSLookup ensVitalik vitalikLower)) = some ca) ∧
    reverseENSLookup ensUnconfirmed vitalikLower = "" := by
  constructor
  · have h := (claim_C4_reverse_lookup_confirmed ensVitalik vitalikLower).1 (by decide)
    exact ⟨by decide, h.2⟩
  · exact (claim_C4_reverse_lookup_confirmed ensUnconfirmed vitalikLower).2 "bad.eth"
      (by decide) (Or.inl (by decide))

/-! ## Claim C5 -/

/-- C5: `ENSLookup` returns `""` (and never throws, being a total function
of the backend outcome) when the remote call fails or resolves to the
zero-address sentinel; a non-empty result arises only from a successful
non-zero resolution, and is that resolved address. -/

theorem claim_C5_forward_lookup_best_effort (env : EnsEnv) (name : String) :
    (env.resolveAddr name = none → ENSLookup env name = "") ∧
    (env.resolveAddr name = some ZERO_ADDRESS → ENSLookup env name = "") ∧
    (ENSLookup env name ≠ "" →
      ∃ addr, env.resolveAddr name = some addr ∧ addr ≠ ZERO_ADDRESS ∧
        ENSLookup env name = addr) := by
  refine ⟨?_, ?_, ?_⟩
  · intro h; simp [ENSLookup, h]
  · intro h; simp [ENSLookup, h]
  · intro h
    cases hr : env.resolveAddr name with
    | none => simp [ENSLookup, hr] at h
    | some addr =>
      simp only [ENSLookup, hr] at h ⊢
      by_cases hz : addr ≠ ZERO_ADDRESS
      · exact ⟨addr, rfl, hz, if_pos hz⟩
      · rw [if_neg hz] at h; exact absurd rfl h

/-- Witness for C5: a failing call and a zero-address resolution both
produce the empty string. -/

theorem claim_C5_witness :
    ENSLookup ensZeroRecord "other.eth" = "" ∧ ENSLookup ensZeroRecord "zero.eth" = "" :=
  ⟨(claim_C5_forward_lookup_best_effort ensZeroRecord "other.eth").1 (by decide),
   (claim_C5_forward_lookup_best_effort ensZeroRecord "zero.eth").2.1 (by decide)⟩

/-! ## Claim C9 -/

/-- C9: `isPrivateKey` is a total Boolean classifier: when conversion to a
buffer throws or key derivation throws (malformed length, non-hex, out of
range — all modelled as `none`), it returns `false` instead of propagating
the exception; it returns `true` exactly when the derivation pipeline
succeeds. -/

theorem claim_C9_isPrivateKey_total (kenv : KeyEnv) (s : String) :
    (kenv.toBuffer s = none → isPrivateKey kenv s = false) ∧
    (∀ b, kenv.toBuffer s = some b → kenv.fromPrivateKey b = none →
      isPrivateKey kenv s = false) ∧
    (isPrivateKey kenv s = true →
      ∃ b w, kenv.toBuffer s = some b ∧ kenv.fromPrivateKey b = some w) := by
  refine ⟨?_, ?_, ?_⟩
  · intro h; simp [isPrivateKey, h]
  · intro b hb hw; simp [isPrivateKey, hb, hw]
  · intro h
    cases hb : kenv.toBuffer s with
    | none => simp [isPrivateKey, hb] at h
    | some b =>
      cases hw : kenv.fromPrivateKey b with
      | none => simp [isPrivateKey, hb, hw] at h
      | some w => exact ⟨b, w, rfl, hw⟩

/-- Witness for C9: malformed input is classified `false` at both failure
stages. -/

theorem claim_C9_witness :
    isPrivateKey keyEnvRejectBuffer "not-hex" = false ∧
    isPrivateKey keyEnvRejectKey "0xabcd" = false :=
  ⟨(claim_C9_isPrivateKey_total keyEnvRejectBuffer "not-hex").1 rfl,
   (claim_C9_isPrivateKey_total keyEnvRejectKey "0xabcd").2.1 [] rfl rfl⟩

/-! ## Claim C7 -/

/-- A code starting with the convert-ENS-name marker cannot also start with
the not-checksum-address marker (their first characters differ). -/

theorem not_NCA_of_CEN {s : String}
    (h : strStartsWith s DIAGNOSTIC_TYPE_CONVERT_ENS_NAME = true) :
    strStartsWith s DIAGNOSTIC_TYPE_NOT_CHECKSUM_ADDRESS = false := by
  rcases hs : s.data with _ | ⟨c, rest⟩
  · rw [strStartsWith, hs] at h
    exact absurd h (by decide)
  · rw [strStartsWith, hs] at h
    rw [strStartsWith, hs]
    have h' : (('C' == c) && List.isPrefixOf "onvertENSName".data rest) = true := h
    simp only [Bool.and_eq_true, beq_iff_eq] at h'
    show (('N' == c) && List.isPrefixOf "otChecksumAddress".data rest) = false
    rw [← h'.1]
    simp

theorem codeActionStep_append (uri : String) (acc : List CodeAction) (d : Diagnostic) :
    codeActionStep uri acc d = acc ++ codeActionStep uri [] d := by
  by_cases h1 : strStartsWith (codeString d) DIAGNOSTIC_TYPE_NOT_CHECKSUM_ADDRESS = true
  · simp [codeActionStep, h1]
  · by_cases h2 : strStartsWith (codeString d) DIAGNOSTIC_TYPE_CONVERT_ENS_NAME = true
    · simp [codeActionStep, h1, h2]
    · simp [codeActionStep, h1, h2]

theorem foldl_codeActionStep (uri : String) :
    ∀ (ds : List Diagnostic) (acc : List CodeAction),
      ds.foldl (codeActionStep uri) acc =
        acc ++ ds.flatMap (fun d => codeActionStep uri [] d) := by
  intro ds
  induction ds with
  | nil => intro acc; simp
  | cons d rest ih =>
    intro acc
    rw [List.foldl_cons, codeActionStep_append, ih]
    simp

theorem getCodeActions_singleton (d : Diagnostic) (uri : String) :
    getCodeActions [d] uri = codeActionStep uri [] d := by
  simp [getCodeActions]

/-- C7: the quick-fix handler processes each published diagnostic
independently; a diagnostic whose (stringified) code starts with a
recognized marker yields exactly one quick-fix action whose single text
edit replaces exactly the diagnostic's range by the text embedded after the
marker, and a diagnostic with no recognized marker yields no action (the
handler still returns normally); dropping a marker's length recovers
exactly the embedded text. -/

theorem claim_C7_quickfix_actions (diagnostics : List Diagnostic) (uri : String) :
    (getCodeActions diagnostics uri =
      diagnostics.flatMap (fun d => getCodeActions [d] uri)) ∧
    (∀ d : Diagnostic,
      (strStartsWith (codeString d) DIAGNOSTIC_TYPE_NOT_CHECKSUM_ADDRESS = true →
        getCodeActions [d] uri =
          [{ title := "Convert to checksum address", kind := CodeActionKindQuickFix,
             edit := { changes := [(uri,
               [⟨d.range, substringFrom (codeString d)
                 DIAGNOSTIC_TYPE_NOT_CHECKSUM_ADDRESS.length⟩])] },
             diagnostics := [d] }]) ∧
      (strStartsWith (codeString d) DIAGNOSTIC_TYPE_CONVERT_ENS_NAME = true →
        getCodeActions [d] uri =
          [{ title := "Convert to ENS name \"" ++
               substringFrom (codeString d) DIAGNOSTIC_TYPE_CONVERT_ENS_NAME.length ++
               "\"",
             kind := CodeActionKindQuickFix,
             edit := { changes := [(uri,
               [⟨d.range, substringFrom (codeString d)
                 DIAGNOSTIC_TYPE_CONVERT_ENS_NAME.length⟩])] },
             diagnostics := [d] }]) ∧
      (strStartsWith (codeString d) DIAGNOSTIC_TYPE_NOT_CHECKSUM_ADDRESS = false →
        strStartsWith (codeString d) DIAGNOSTIC_TYPE_CONVERT_ENS_NAME = false →
        getCodeActions [d] uri = [])) ∧
    (∀ rest : String,
      substringFrom (DIAGNOSTIC_TYPE_NOT_CHECKSUM_ADDRESS ++ rest)
        DIAGNOSTIC_TYPE_NOT_CHECKSUM_ADDRESS.length = rest ∧
      substringFrom (DIAGNOSTIC_TYPE_CONVERT_ENS_NAME ++ rest)
        DIAGNOSTIC_TYPE_CONVERT_ENS_NAME.length = rest) := by
  refine ⟨?_, ?_, ?_⟩
  · rw [getCodeActions, foldl_codeActionStep]
    simp only [List.nil_append, getCodeActions_singleton]
  · intro d
    refine ⟨?_, ?_, ?_⟩
    · intro h1
      rw [getCodeActions_singleton, codeActionStep, if_pos h1]
      rw [getQuickFix]
      rfl
    · intro h2
      rw [getCodeActions_singleton, codeActionStep,
        if_neg (by simp [not_NCA_of_CEN h2]), if_pos h2]
      rw [getQuickFix]
      rfl
    · intro h1 h2
      rw [getCodeActions_singleton, codeActionStep,
        if_neg (by simp [h1]), if_neg (by simp [h2])]
  · intro rest
    exact ⟨substringFrom_append _ _, substringFrom_append _ _⟩

/-- Witness for C7: a checksum diagnostic gets its single replacement
action over its own range, and an unrecognized code gets none. -/

theorem claim_C7_witness :
    getCodeActions [c7DiagChecksum] "file:a.txt" =
      [{ title := "Convert to checksum address", kind := CodeActionKindQuickFix,
         edit := { changes := [("file:a.txt", [⟨⟨3, 7⟩, "0xAB"⟩])] },
         diagnostics := [c7DiagChecksum] }] ∧
    getCodeActions [c7DiagUnknown] "file:a.txt" = [] := by
  constructor
  · have h := ((claim_C7_quickfix_actions [c7DiagChecksum] "file:a.txt").2.1
      c7DiagChecksum).1 (by decide)
    rw [h]
    have hsub : substringFrom (codeString c7DiagChecksum)
        DIAGNOSTIC_TYPE_NOT_CHECKSUM_ADDRESS.length = "0xAB" := by decide
    rw [hsub]
    rfl
  · exact ((claim_C7_quickfix_actions [c7DiagUnknown] "file:a.txt").2.1
      c7DiagUnknown).2.2 (by decide) (by decide)

/-! ## Claim C8 -/

theorem pushEthereumAddressCodeLenses_eq (codeLensType : String) (range : Range)
    (content : String) (codeLenses : List CodeLens) :
    pushEthereumAddressCodeLenses codeLensType range content codeLenses =
      codeLenses ++ NETWORKS.map (fun network =>
        { range := range, data := ⟨codeLensType, network, content⟩, command := none }) :=
  foldl_append_singleton _ NETWORKS codeLenses

/-- C8: one unresolved lens per network of the fixed five-network set, per
valid address span and per derivable private-key span, each anchored at the
span's range; no lens carries a command at scan time (resolution happens
only in the resolve handler, which is where the remote lookups live). -/

theorem claim_C8_code_lenses (kenv : KeyEnv) (text : String) :
    (connectionOnCodeLens kenv text =
      ((findPossibleEthereumAddresses text).filter
          (fun e => isValidEthereumAddress e.content)).flatMap
        (fun e => NETWORKS.map (fun network =>
          { range := e.range, data := ⟨CODE_LENS_TYPE_ETH_ADDRESS, network, e.content⟩,
            command := none })) ++
      ((findPossiblePrivateKeys text).filter
          (fun e => isPrivateKey kenv e.content)).flatMap
        (fun e => NETWORKS.map (fun network =>
          { range := e.range,
            data := ⟨CODE_LENS_TYPE_ETH_PRIVATE_KEY, network,
              toPublicKey kenv e.content⟩,
            command := none }))) ∧
    NETWORKS = [MAINNET, ROPSTEN, KOVAN, RINKEBY, GOERLI] ∧
    NETWORKS.length = 5 ∧
    (∀ lens ∈ connectionOnCodeLens kenv text, lens.command = none) := by
  have h1 : connectionOnCodeLens kenv text =
      ((findPossibleEthereumAddresses text).filter
          (fun e => isValidEthereumAddress e.content)).flatMap
        (fun e => NETWORKS.map (fun network =>
          { range := e.range, data := ⟨CODE_LENS_TYPE_ETH_ADDRESS, network, e.content⟩,
            command := none })) ++
      ((findPossiblePrivateKeys text).filter
          (fun e => isPrivateKey kenv e.content)).flatMap
        (fun e => NETWORKS.map (fun network =>
          { range := e.range,
            data := ⟨CODE_LENS_TYPE_ETH_PRIVATE_KEY, network,
              toPublicKey kenv e.content⟩,
            command := none })) := by
    rw [connectionOnCodeLens]
    simp only [pushEthereumAddressCodeLenses_eq]
    rw [foldl_filter_flatMap, foldl_filter_flatMap]
    simp
  refine ⟨h1, rfl, rfl, ?_⟩
  intro lens hl
  rw [h1] at hl
  rcases List.mem_append.mp hl with hl | hl <;>
    (obtain ⟨e, _, hm⟩ := List.mem_flatMap.mp hl
     obtain ⟨network, _, hn⟩ := List.mem_map.mp hm
     rw [← hn])

/-- Witness for C8: the mainnet lens of the fixture address span is emitted
and carries no command at scan time. -/

theorem claim_C8_witness :
    (⟨⟨0, 42⟩, ⟨CODE_LENS_TYPE_ETH_ADDRESS, MAINNET, vitalikLower⟩, none⟩ : CodeLens) ∈
      connectionOnCodeLens keyEnvRejectBuffer vitalikLower ∧
    (⟨⟨0, 42⟩, ⟨CODE_LENS_TYPE_ETH_ADDRESS, MAINNET, vitalikLower⟩, none⟩ :
      CodeLens).command = none :=
  ⟨by decide,
   (claim_C8_code_lenses keyEnvRejectBuffer vitalikLower).2.2.2 _ (by decide)⟩

/-! ## Claim C10 -/

/-- C10: every private-key span's content is `0x` prepended to the matched
64 characters, while its range covers only those 64 characters — so the
content never equals the document text at the span's range, unlike address
spans, whose content is the raw matched text. -/

theorem claim_C10_key_span_content (text : String) (e : StringLocation)
    (he : e ∈ findPossiblePrivateKeys text) :
    e.range.stop = e.range.start + 64 ∧
    e.content = "0x" ++ sliceStr text e.range.start e.range.stop ∧
    e.content ≠ sliceStr text e.range.start e.range.stop ∧
    (∀ a ∈ findPossibleEthereumAddresses text,
      a.content = sliceStr text a.range.start a.range.stop) := by
  obtain ⟨-, h2, raw, hlen, hhex, hcontent, hslice⟩ :=
    findPossiblePrivateKeysLoop_mem text.data.length text.data 0 0 e he
  simp only [Nat.sub_zero] at hslice
  have hs : sliceStr text e.range.start e.range.stop = String.mk raw := by
    rw [sliceStr, h2]
    have hsub : e.range.start + 64 - e.range.start = 64 := by omega
    rw [hsub, hslice]
  refine ⟨h2, ?_, ?_, ?_⟩
  · rw [hs, hcontent]
  · rw [hs, hcontent]
    intro hEq
    have hL := congrArg String.length hEq
    rw [String.length_append] at hL
    have h0 : ("0x" : String).length = 2 := rfl
    have h1 : (String.mk raw).length = raw.length := rfl
    rw [h0, h1] at hL
    omega
  · intro a ha
    obtain ⟨-, ha2, core, ha3, ha4, -, ha6⟩ :=
      findAddrLoop_mem text.data.length text.data 0 0 a ha
    simp only [Nat.sub_zero] at ha6
    rw [sliceStr, ha2]
    have hsub : a.range.start + 42 - a.range.start = 42 := by omega
    rw [hsub, ha6, ha3]

/-- Witness for C10: the fixture key span's content is the `0x`-prefixed
match and differs from the text at its range. -/

theorem claim_C10_witness :
    c10Span ∈ findPossiblePrivateKeys c10Text ∧
    (c10Span.range.stop = c10Span.range.start + 64 ∧
     c10Span.content = "0x" ++ sliceStr c10Text c10Span.range.start c10Span.range.stop ∧
     c10Span.content ≠ sliceStr c10Text c10Span.range.start c10Span.range.stop ∧
     (∀ a ∈ findPossibleEthereumAddresses c10Text,
       a.content = sliceStr c10Text a.range.start a.range.stop)) :=
  ⟨by decide, claim_C10_key_span_content c10Text c10Span (by decide)⟩

/-! ## Claim C1 -/

/-- C1 (code bug): with the default (empty) credentials, a fresh session's
`ens` is still undefined, and validating a document containing one valid
address throws (`ens.reverse` on `undefined`), rejecting the pass before
`sendDiagnostics` — the already-built checksum warning is lost; with
credentials present, the same pass completes and publishes its local
checksum warning even though every remote call fails. -/

theorem claim_C1_missing_credentials_abort_pass :
    (validateTextDocument none ensFail defaultSettings vitalikLower).toOption = none ∧
    (validateTextDocument none ensFail credSettings vitalikLower).toOption =
      some [addDiagnostic ⟨⟨0, 42⟩, vitalikLower⟩
        (vitalikLower ++ " is not a checksum address")
        .Warning (some (DIAGNOSTIC_TYPE_NOT_CHECKSUM_ADDRESS ++ vitalikChecksum))] := by
  exact ⟨by decide, by decide⟩

/-! ## Claim C2 -/

/-- Counterexample to C2 as stated: with `maxNumberOfProblems := 1`, a
single processed candidate that is valid, not in checksum form, and that
has a confirmed reverse ENS name produces two diagnostics (one warning and
one hint) in one pass — more than `maxNumberOfProblems`. -/

theorem claim_C2_counterexample :
    (validateTextDocument none ensVitalik c2Settings vitalikLower).toOption.map
      List.length = some 2 ∧
    c2Settings.maxNumberOfProblems = 1 :=
  ⟨by decide, rfl⟩

/-- C2 as amended: the cap bounds the number of *candidate spans* processed
(stopping the scan loop from emitting further, never truncating the built
list), and each processed span emits at most two diagnostics, so a
completed pass publishes at most `2 * maxNumberOfProblems` diagnostics. -/

theorem claim_C2_amended_cap (priorEns : Option EnsEnv) (newEns : EnsEnv)
    (settings : DefiSettings) (text : String) (ds : List Diagnostic)
    (h : validateTextDocument priorEns newEns settings text = .ok ds) :
    ds.length ≤ 2 * settings.maxNumberOfProblems := by
  rw [validateTextDocument] at h
  have hb := validateLoop_length_le settings (findPossibleEthereumAddresses text)
    _ 0 [] ds h
  simpa using hb

/-- Witness for the amended C2 at a concrete completed pass. -/

theorem claim_C2_amended_witness :
    validateTextDocument none ensFail credSettings "hello" = .ok [] ∧
    ([] : List Diagnostic).length ≤ 2 * credSettings.maxNumberOfProblems :=
  ⟨rfl, claim_C2_amended_cap none ensFail credSettings "hello" [] rfl⟩

/-! ## Claim C3 -/

/-- The loop consumes one fuel unit per visited position and 43 characters
per token group, so a fuel of 43 per group suffices: on `n` concatenated
groups `capToken ++ " "` the scanner returns exactly `n` spans. -/

theorem findAddrLoop_repeat :
    ∀ (n fuel pos : Nat), 43 * n ≤ fuel →
      (findAddrLoop fuel
        (List.flatten (List.replicate n (capToken.data ++ [' ']))) pos 0).length = n := by
  intro n
  induction n with
  | zero =>
    intro fuel pos _
    cases fuel with
    | zero => rfl
    | succ f => rfl
  | succ n ih =>
    intro fuel pos hf
    cases fuel with
    | zero => omega
    | succ f =>
      cases f with
      | zero => omega
      | succ f2 =>
        rw [List.replicate_succ, List.flatten_cons]
        have hstep : findAddrLoop (f2 + 1 + 1)
            ((capToken.data ++ [' ']) ++
              List.flatten (List.replicate n (capToken.data ++ [' ']))) pos 0 =
            ⟨⟨pos, pos + 42⟩, capToken⟩ ::
              findAddrLoop f2
                (List.flatten (List.replicate n (capToken.data ++ [' '])))
                (pos + 42 + 1) 0 := rfl
        rw [hstep, List.length_cons, ih f2 (pos + 42 + 1) (by omega)]

/-- C3 (code bug): the scanner's `problems` counter is never incremented,
so the `problems < 100` guard (with the configured
`settings.maxNumberOfProblems` commented out in the source) never stops the
loop: it returns all three spans of a three-token text whatever cap the
settings configure, and on 101 address tokens — more than even the
hard-coded 100 — it still returns all 101 spans instead of `cap` spans. -/

theorem claim_C3_scanner_cap_dead :
    (findPossibleEthereumAddresses smallCapText).length = 3 ∧
    (findPossibleEthereumAddresses capText).length = 101 := by
  constructor
  · decide
  · rw [findPossibleEthereumAddresses]
    have hdata : capText.data =
        List.flatten (List.replicate 101 (capToken.data ++ [' '])) := rfl
    rw [hdata]
    have hlen : (List.flatten (List.replicate 101 (capToken.data ++ [' ']))).length
        = 4343 := by
      rw [List.length_flatten, List.map_replicate, List.sum_replicate]
      have : (capToken.data ++ [' ']).length = 43 := by decide
      rw [this]
      rfl
    rw [hlen]
    exact findAddrLoop_repeat 101 4343 0 (by omega)

/-! ## Claim C6 -/

/-- C6 as amended: provided the ENS client is initialized (non-empty Infura
project id; otherwise the pass aborts, see C1) and the candidate is among
the first `maxNumberOfProblems` scanned candidates (later candidates are
skipped, see C2/C3), every scanned candidate that passes the
checksum-agnostic validity test but differs from its canonical checksum
form receives exactly one warning-level diagnostic, anchored at the
candidate's range, whose code is the recognized marker followed by the
canonical checksum string — so the text after the marker is exactly the
canonical checksum. -/

theorem claim_C6_amended_checksum_warning (priorEns : Option EnsEnv) (newEns : EnsEnv)
    (settings : DefiSettings) (text : String) (e : StringLocation) (cs : String)
    (hcred : ¬settings.infuraProjectId = "")
    (hmem : e ∈ (findPossibleEthereumAddresses text).take settings.maxNumberOfProblems)
    (hv : isValidEthereumAddress e.content = true)
    (hcs : toChecksumAddress e.content = some cs)
    (hne : cs ≠ e.content) :
    ∃ ds, validateTextDocument priorEns newEns settings text = .ok ds ∧
      warningsAt ds e.range =
        [addDiagnostic e (e.content ++ " is not a checksum address")
          .Warning (some (DIAGNOSTIC_TYPE_NOT_CHECKSUM_ADDRESS ++ cs))] ∧
      substringFrom (DIAGNOSTIC_TYPE_NOT_CHECKSUM_ADDRESS ++ cs)
        DIAGNOSTIC_TYPE_NOT_CHECKSUM_ADDRESS.length = cs := by
  rw [validateTextDocument, if_neg hcred]
  have hsome : ∀ a ∈ findPossibleEthereumAddresses text,
      (toChecksumAddress a.content).isSome = true :=
    fun a ha => addr_span_checksum_isSome ha
  rw [validateLoop_ok newEns settings _ 0 [] hsome]
  refine ⟨_, rfl, ?_, substringFrom_append _ _⟩
  simp only [Nat.sub_zero, List.nil_append]
  refine warningsAt_flatMap newEns _ e cs ?_ hmem hv hcs hne
  exact List.Pairwise.sublist (List.take_sublist _ _)
    (findAddrLoop_pairwise text.data.length text.data 0 0)

/-- Counterexample to C6 as stated: the fixture address is a scanned
candidate, valid, and differs from its canonical checksum form, yet (a)
with `maxNumberOfProblems := 0` the completed pass publishes no diagnostics
at all, and (b) with empty credentials the pass aborts publishing nothing —
in both cases the promised warning is absent. -/

theorem claim_C6_counterexample :
    (validateTextDocument none ensFail c6Settings vitalikLower).toOption = some [] ∧
    (validateTextDocument none ensFail defaultSettings vitalikLower).toOption = none ∧
    (⟨⟨0, 42⟩, vitalikLower⟩ : StringLocation) ∈
      findPossibleEthereumAddresses vitalikLower ∧
    isValidEthereumAddress vitalikLower = true ∧
    toChecksumAddress vitalikLower = some vitalikChecksum ∧
    vitalikChecksum ≠ vitalikLower :=
  ⟨by decide, by decide, by decide, by decide, by decide, by decide⟩

/-- Witness for the amended C6 at the fixture address. -/

theorem claim_C6_witness :
    ∃ ds, validateTextDocument none ensFail credSettings vitalikLower = .ok ds ∧
      warningsAt ds (⟨⟨0, 42⟩, vitalikLower⟩ : StringLocation).range =
        [addDiagnostic ⟨⟨0, 42⟩, vitalikLower⟩
          (vitalikLower ++ " is not a checksum address")
          .Warning (some (DIAGNOSTIC_TYPE_NOT_CHECKSUM_ADDRESS ++ vitalikChecksum))] ∧
      substringFrom (DIAGNOSTIC_TYPE_NOT_CHECKSUM_ADDRESS ++ vitalikChecksum)
        DIAGNOSTIC_TYPE_NOT_CHECKSUM_ADDRESS.length = vitalikChecksum :=
  claim_C6_amended_checksum_warning none ensFail credSettings vitalikLower
    ⟨⟨0, 42⟩, vitalikLower⟩ vitalikChecksum (by decide) (by decide) (by decide)
    (by decide) (by decide)
